import Mathlib

/-!
Shallow embedding of udmada/dmarc-email-worker for verification.

Modules embedded:
* `src/reply-queue.ts` — the `ReplyQueue` durable object (delayed delivery
  queue): `enqueue`, the `alarm` handler, its storage map and single timer.
* `src/dmarc.ts` — `parseDMARCReportFromString` and `isXMLDMARCFeedback`.
* `src/tlsrpt.ts` — `parseTLSReport` and `isTLSReport`.

Conventions of the embedding:
* JavaScript runtime values produced by `JSON.parse` / `fast-xml-parser`
  are modelled by the inductive `JSVal`; `undefined` (an absent property)
  is modelled by `Option.none` at use sites.
* JavaScript numbers are modelled as exact integers (`Int`); `NaN` is
  modelled as `Option.none` where it can arise (the result of `parseInt`).
* Storage of the durable object is the association list of its `job:`
  entries (keys are distinct in real storage) plus the single alarm value.
* Firing the alarm is modelled after the Cloudflare runtime: the alarm is
  consumed when the handler starts, so the timer after a fire is exactly
  what the handler itself sets (or unset, if it sets none).
-/

namespace DmarcWorker

/-! ## Reply queue model (src/reply-queue.ts) -/

/-- `ReplyMessage` from `src/types.ts`; `sendAt` is an epoch-millis time. -/
structure ReplyMessage where
  messageId : String
  replyTo : String
  reportId : String
  subject : String
  sendAt : Int
  deriving Repr, DecidableEq

/-- `PendingJob` from `src/reply-queue.ts`. -/
structure PendingJob where
  msg : ReplyMessage
  attempts : Nat
  deriving Repr, DecidableEq

/-- `MAX_ATTEMPTS` constant from `src/reply-queue.ts`. -/
def MAX_ATTEMPTS : Nat := 5

/-- The durable object's observable state: its `job:`-prefixed storage
entries and the single alarm (`none` = no alarm set). -/
structure QueueState where
  jobs : List (String × PendingJob)
  alarm : Option Int
  deriving Repr, DecidableEq

/-- `ctx.storage.put(key, job)`: insert or overwrite the entry at `key`. -/
def storagePut (jobs : List (String × PendingJob)) (key : String)
    (job : PendingJob) : List (String × PendingJob) :=
  if jobs.any (fun e => e.1 == key) then
    jobs.map (fun e => if e.1 == key then (key, job) else e)
  else
    jobs ++ [(key, job)]

/-- The storage key used for a message: `` `job:${msg.reportId}` ``. -/
def jobKey (reportId : String) : String := "job:" ++ reportId

/-- `ReplyQueue.enqueue` (src/reply-queue.ts lines 13–23): store
`PendingJob{msg, attempts: 0}` under `job:${msg.reportId}`, then set the
alarm to `msg.sendAt` when the current alarm is unset or later. -/
def enqueue (s : QueueState) (m : ReplyMessage) : QueueState :=
  let jobs := storagePut s.jobs (jobKey m.reportId) { msg := m, attempts := 0 }
  let alarm :=
    match s.alarm with
    | none => some m.sendAt
    | some a => if m.sendAt < a then some m.sendAt else some a
  { jobs := jobs, alarm := alarm }

/-- The running minimum used for `nextAlarm` in the alarm handler:
`if (nextAlarm === null || t < nextAlarm) nextAlarm = t`. -/
def updMin (na : Option Int) (t : Int) : Option Int :=
  match na with
  | none => some t
  | some a => if t < a then some t else some a

/-- The retry delay for the `next`-th attempt:
`5 * 60 * 1000 * Math.pow(2, next - 1)` milliseconds. -/
def backoffMs (next : Nat) : Int := 5 * 60 * 1000 * 2 ^ (next - 1)

/-- Accumulator of the alarm handler's loop: the entries left in storage,
the running `nextAlarm` minimum, and the reportIds dropped (reported via
`console.error`) after exhausting `MAX_ATTEMPTS`. -/
structure AlarmAcc where
  kept : List (String × PendingJob)
  nextAlarm : Option Int
  dropped : List String
  deriving Repr, DecidableEq

/-- One iteration of the `for (const [key, job] of allEntries)` loop in
`ReplyQueue.alarm` (src/reply-queue.ts lines 32–64), parameterised by the
outcome of `sendReply` (`send` returns `true` when the send succeeds). -/
def alarmLoopStep (send : ReplyMessage → Bool) (now : Int)
    (acc : AlarmAcc) (e : String × PendingJob) : AlarmAcc :=
  if now < e.2.msg.sendAt then
    -- not due yet: keep unchanged, track for rescheduling
    { acc with kept := acc.kept ++ [e],
               nextAlarm := updMin acc.nextAlarm e.2.msg.sendAt }
  else if send e.2.msg then
    -- sendReply succeeded: storage.delete(key)
    acc
  else
    let next := e.2.attempts + 1
    if MAX_ATTEMPTS ≤ next then
      -- console.error(...); storage.delete(key)
      { acc with dropped := acc.dropped ++ [e.2.msg.reportId] }
    else
      let retryAt := now + backoffMs next
      { kept := acc.kept ++
          [(e.1, { msg := { e.2.msg with sendAt := retryAt }, attempts := next })],
        nextAlarm := updMin acc.nextAlarm retryAt,
        dropped := acc.dropped }

/-- `ReplyQueue.alarm` (src/reply-queue.ts lines 25–69). The runtime
consumes the alarm when the handler starts, so the resulting alarm is
exactly the `nextAlarm` the loop computed (unset when it stays `null`).
Returns the new state together with the list of dropped reportIds. -/
def alarm (send : ReplyMessage → Bool) (now : Int) (s : QueueState) :
    QueueState × List String :=
  let acc := s.jobs.foldl (alarmLoopStep send now) ⟨[], none, []⟩
  (⟨acc.kept, acc.nextAlarm⟩, acc.dropped)

/-- Per-entry summary of the loop: the entry left in storage by one
iteration (`none` when the iteration deletes it). -/
def processEntry (send : ReplyMessage → Bool) (now : Int)
    (e : String × PendingJob) : Option (String × PendingJob) :=
  if now < e.2.msg.sendAt then some e
  else if send e.2.msg then none
  else if MAX_ATTEMPTS ≤ e.2.attempts + 1 then none
  else some (e.1,
    { msg := { e.2.msg with sendAt := now + backoffMs (e.2.attempts + 1) },
      attempts := e.2.attempts + 1 })

/-- Per-entry summary of the loop: the reportId reported as dropped by one
iteration, if any. -/
def droppedEntry (send : ReplyMessage → Bool) (now : Int)
    (e : String × PendingJob) : Option String :=
  if now < e.2.msg.sendAt then none
  else if send e.2.msg then none
  else if MAX_ATTEMPTS ≤ e.2.attempts + 1 then some e.2.msg.reportId
  else none

/-- Minimum of a list of times, `none` on the empty list. -/
def listMin : List Int → Option Int
  | [] => none
  | t :: ts =>
    match listMin ts with
    | none => some t
    | some m => some (min t m)

/-- Merge of two optional minima. -/
def optMin : Option Int → Option Int → Option Int
  | none, b => b
  | some a, none => some a
  | some a, some b => some (min a b)

theorem updMin_eq_optMin (na : Option Int) (t : Int) :
    updMin na t = optMin na (some t) := by
  cases na with
  | none => rfl
  | some a =>
    simp only [updMin, optMin]
    by_cases h : t < a
    · simp [h, min_eq_right (le_of_lt h)]
    · simp [h, min_eq_left (le_of_not_lt h)]

theorem optMin_none_right (a : Option Int) : optMin a none = a := by
  cases a <;> rfl

theorem optMin_assoc (a b c : Option Int) :
    optMin (optMin a b) c = optMin a (optMin b c) := by
  cases a <;> cases b <;> cases c <;> simp [optMin, min_assoc]

theorem listMin_cons (t : Int) (ts : List Int) :
    listMin (t :: ts) = optMin (some t) (listMin ts) := by
  simp only [listMin]
  cases listMin ts <;> rfl

/-- The alarm handler's loop, summarised entrywise: each storage entry is
independently kept/rewritten/deleted (`processEntry`), the computed
`nextAlarm` is the minimum of the surviving entries' `sendAt` times, and
the dropped reports are those `droppedEntry` selects. -/
theorem alarm_foldl_eq (send : ReplyMessage → Bool) (now : Int) :
    ∀ (es : List (String × PendingJob)) (acc : AlarmAcc),
      es.foldl (alarmLoopStep send now) acc =
        ⟨acc.kept ++ es.filterMap (processEntry send now),
         optMin acc.nextAlarm
           (listMin ((es.filterMap (processEntry send now)).map
             (fun e => e.2.msg.sendAt))),
         acc.dropped ++ es.filterMap (droppedEntry send now)⟩ := by
  intro es
  induction es with
  | nil =>
    intro acc
    simp [listMin, optMin_none_right]
  | cons e es ih =>
    intro acc
    rw [List.foldl_cons, ih]
    by_cases h1 : now < e.2.msg.sendAt
    · simp only [alarmLoopStep, processEntry, droppedEntry, if_pos h1,
        List.filterMap_cons]
      simp [h1, listMin_cons, updMin_eq_optMin, optMin_assoc]
    · by_cases h2 : send e.2.msg = true
      · simp only [alarmLoopStep, processEntry, droppedEntry, List.filterMap_cons]
        simp [h1, h2]
      · by_cases h3 : MAX_ATTEMPTS ≤ e.2.attempts + 1
        · simp only [alarmLoopStep, processEntry, droppedEntry, List.filterMap_cons]
          simp [h1, h2, h3]
        · simp only [alarmLoopStep, processEntry, droppedEntry, List.filterMap_cons]
          simp [h1, h2, h3, listMin_cons, updMin_eq_optMin, optMin_assoc]

/-- Closed form of one alarm fire. -/
theorem alarm_eq (send : ReplyMessage → Bool) (now : Int) (s : QueueState) :
    alarm send now s =
      (⟨s.jobs.filterMap (processEntry send now),
        listMin ((s.jobs.filterMap (processEntry send now)).map
          (fun e => e.2.msg.sendAt))⟩,
       s.jobs.filterMap (droppedEntry send now)) := by
  simp [alarm, alarm_foldl_eq, optMin]

theorem listMin_eq_none {ts : List Int} : listMin ts = none ↔ ts = [] := by
  cases ts with
  | nil => simp [listMin]
  | cons t ts =>
    rw [listMin_cons]
    cases listMin ts <;> simp [optMin]

theorem listMin_le {ts : List Int} {m : Int} (h : listMin ts = some m) :
    ∀ t ∈ ts, m ≤ t := by
  induction ts generalizing m with
  | nil => simp [listMin] at h
  | cons t ts ih =>
    intro u hu
    rw [listMin_cons] at h
    rw [List.mem_cons] at hu
    cases hts : listMin ts with
    | none =>
      rw [hts] at h
      simp only [optMin, Option.some.injEq] at h
      rcases hu with hu | hu
      · omega
      · rw [listMin_eq_none.mp hts] at hu; simp at hu
    | some m' =>
      rw [hts] at h
      simp only [optMin, Option.some.injEq] at h
      rw [min_def] at h
      rcases hu with hu | hu
      · split at h <;> omega
      · have h1 := ih hts u hu
        split at h <;> omega

theorem listMin_mem {ts : List Int} {m : Int} (h : listMin ts = some m) :
    m ∈ ts := by
  induction ts generalizing m with
  | nil => simp [listMin] at h
  | cons t ts ih =>
    rw [listMin_cons] at h
    cases hts : listMin ts with
    | none =>
      rw [hts] at h
      simp only [optMin, Option.some.injEq] at h
      rw [List.mem_cons]; left; omega
    | some m' =>
      rw [hts] at h
      simp only [optMin, Option.some.injEq] at h
      rcases min_cases t m' with ⟨he, _⟩ | ⟨he, _⟩
      · rw [List.mem_cons]; left; omega
      · rw [List.mem_cons]; right; rw [← h, he]; exact ih hts

theorem listMin_isSome {ts : List Int} (h : ts ≠ []) :
    ∃ m, listMin ts = some m := by
  cases ts with
  | nil => exact absurd rfl h
  | cons t ts =>
    rw [listMin_cons]
    cases listMin ts <;> simp [optMin]

/-- `processEntry` never changes the storage key of an entry. -/
theorem processEntry_fst {send : ReplyMessage → Bool} {now : Int}
    {e e' : String × PendingJob} (h : processEntry send now e = some e') :
    e'.1 = e.1 ∧ e'.2.msg.reportId = e.2.msg.reportId := by
  unfold processEntry at h
  split at h
  · cases h; exact ⟨rfl, rfl⟩
  · split at h
    · cases h
    · split at h
      · cases h
      · cases h; exact ⟨rfl, rfl⟩

/-- In a storage list with distinct keys, an entry is determined by its
key. -/
theorem key_unique {l : List (String × PendingJob)}
    (hnd : (l.map Prod.fst).Nodup) {k : String} {a b : PendingJob}
    (ha : (k, a) ∈ l) (hb : (k, b) ∈ l) : a = b := by
  induction l with
  | nil => simp at ha
  | cons x t ih =>
    rw [List.map_cons, List.nodup_cons] at hnd
    rw [List.mem_cons] at ha hb
    rcases ha with ha | ha <;> rcases hb with hb | hb
    · exact congrArg Prod.snd (ha.trans hb.symm)
    · exfalso
      have hk : k ∈ List.map Prod.fst t := List.mem_map_of_mem Prod.fst hb
      rw [← ha] at hnd
      exact hnd.1 hk
    · exfalso
      have hk : k ∈ List.map Prod.fst t := List.mem_map_of_mem Prod.fst ha
      rw [← hb] at hnd
      exact hnd.1 hk
    · exact ih hnd.2 ha hb

/-- Entries have distinct keys, so membership of a key in the processed
list forces the source entry. -/
theorem mem_filterMap_processEntry {send : ReplyMessage → Bool} {now : Int}
    {l : List (String × PendingJob)} (hnd : (l.map Prod.fst).Nodup)
    {k : String} {a b : PendingJob} (ha : (k, a) ∈ l)
    (hb : (k, b) ∈ l.filterMap (processEntry send now)) :
    processEntry send now (k, a) = some (k, b) := by
  rw [List.mem_filterMap] at hb
  rcases hb with ⟨e, he, hpe⟩
  have hk := (processEntry_fst hpe).1
  obtain ⟨k', a'⟩ := e
  simp only at hk
  subst hk
  have : a' = a := key_unique hnd he ha
  subst this
  exact hpe

theorem storagePut_ne_nil (l : List (String × PendingJob)) (key : String)
    (j : PendingJob) : storagePut l key j ≠ [] := by
  unfold storagePut
  split
  · rename_i hany
    intro hc
    rw [List.map_eq_nil_iff] at hc
    subst hc
    simp at hany
  · simp

theorem mem_storagePut {l : List (String × PendingJob)} {key : String}
    {j : PendingJob} {e : String × PendingJob} (h : e ∈ storagePut l key j) :
    e = (key, j) ∨ e ∈ l := by
  unfold storagePut at h
  split at h
  · rw [List.mem_map] at h
    rcases h with ⟨x, hx, hfx⟩
    split at hfx
    · left; exact hfx.symm
    · right; rw [← hfx]; exact hx
  · rw [List.mem_append] at h
    rcases h with h | h
    · right; exact h
    · left; simpa using h

/-! ### Reachability and the timer invariant (claim C1) -/

/-- Queue states reachable from the empty queue by `enqueue` calls and
alarm fires (the runtime only fires an alarm that is set). -/
inductive Reach : QueueState → Prop
  | empty : Reach ⟨[], none⟩
  | enq : ∀ (s : QueueState) (m : ReplyMessage), Reach s → Reach (enqueue s m)
  | fire : ∀ (s : QueueState) (send : ReplyMessage → Bool) (now : Int),
      Reach s → s.alarm.isSome → Reach (alarm send now s).1

theorem enqueue_jobs (s : QueueState) (m : ReplyMessage) :
    (enqueue s m).jobs = storagePut s.jobs (jobKey m.reportId) ⟨m, 0⟩ := rfl

theorem enqueue_alarm (s : QueueState) (m : ReplyMessage) :
    (enqueue s m).alarm =
      match s.alarm with
      | none => some m.sendAt
      | some a => if m.sendAt < a then some m.sendAt else some a := rfl

/-- C1 (amended): for every queue state reachable from the empty queue by
any sequence of enqueue and timer-fire operations, whenever at least one
pending job exists the timer is set and its value is at most every pending
job's sendAt/retry time (it can be strictly below the minimum, because an
enqueue that overwrites a same-reportId job with a later sendAt leaves the
timer at the overwritten job's earlier time); whenever no pending job
exists, the timer is unset. -/
theorem timerLowerBoundInvariant (s : QueueState) (h : Reach s) :
    (s.jobs = [] → s.alarm = none) ∧
    (s.jobs ≠ [] → ∃ a, s.alarm = some a ∧
      ∀ e ∈ s.jobs, a ≤ e.2.msg.sendAt) := by
  induction h with
  | empty => exact ⟨fun _ => rfl, fun hne => absurd rfl hne⟩
  | enq s m hr ih =>
    constructor
    · intro hnil
      rw [enqueue_jobs] at hnil
      exact absurd hnil (storagePut_ne_nil _ _ _)
    · intro _
      cases hs : s.alarm with
      | none =>
        have hsj : s.jobs = [] := by
          by_contra hne
          rcases ih.2 hne with ⟨a, ha, _⟩
          rw [hs] at ha
          cases ha
        refine ⟨m.sendAt, ?_, ?_⟩
        · rw [enqueue_alarm, hs]
        · intro e he
          rw [enqueue_jobs, hsj] at he
          simp only [storagePut, List.any_nil, Bool.false_eq_true, if_false,
            List.nil_append, List.mem_singleton] at he
          rw [he]
      | some a =>
        refine ⟨if m.sendAt < a then m.sendAt else a, ?_, ?_⟩
        · rw [enqueue_alarm, hs]
          dsimp only
          split <;> rfl
        · intro e he
          rw [enqueue_jobs] at he
          rcases mem_storagePut he with rfl | hmem
          · simp only
            split <;> omega
          · have hne : s.jobs ≠ [] := List.ne_nil_of_mem hmem
            rcases ih.2 hne with ⟨a', ha', hb⟩
            rw [hs] at ha'
            injection ha' with ha'
            subst ha'
            have hbe := hb e hmem
            split <;> omega
  | fire s send now hr hsome ih =>
    rw [alarm_eq]
    dsimp only
    constructor
    · intro hnil
      rw [hnil]
      rfl
    · intro hne
      have hmapne : ((s.jobs.filterMap (processEntry send now)).map
          (fun e => e.2.msg.sendAt)) ≠ [] := by
        intro hc
        rw [List.map_eq_nil_iff] at hc
        exact hne hc
      rcases listMin_isSome hmapne with ⟨mval, hm⟩
      refine ⟨mval, hm, ?_⟩
      intro e he
      exact listMin_le hm _ (List.mem_map_of_mem _ he)

/-- C1 counterexample: the claim as stated ("the timer equals the minimum
sendAt across all pending jobs") is false on a reachable state. Enqueue a
message for reportId "r1" with sendAt 100, then a second message for the
same reportId with sendAt 200: the first job is overwritten, so the only
pending job's sendAt (hence the minimum) is 200, yet the timer remains at
100 — and 100 ≠ 200. -/
theorem timerEqualsMinimum_counterexample :
    Reach (enqueue (enqueue ⟨[], none⟩
        ⟨"m1", "user@example.com", "r1", "Re: report", 100⟩)
        ⟨"m2", "user@example.com", "r1", "Re: report", 200⟩) ∧
    (enqueue (enqueue ⟨[], none⟩
        ⟨"m1", "user@example.com", "r1", "Re: report", 100⟩)
        ⟨"m2", "user@example.com", "r1", "Re: report", 200⟩).jobs.map
      (fun e => e.2.msg.sendAt) = [200] ∧
    (enqueue (enqueue ⟨[], none⟩
        ⟨"m1", "user@example.com", "r1", "Re: report", 100⟩)
        ⟨"m2", "user@example.com", "r1", "Re: report", 200⟩).alarm = some 100 ∧
    (100 : Int) ≠ 200 := by
  exact ⟨Reach.enq _ _ (Reach.enq _ _ Reach.empty), by decide, by decide, by decide⟩

/-- Witness for `timerLowerBoundInvariant`: after a single enqueue on the
empty queue the timer is set and bounds the one pending job's sendAt. -/
theorem timerLowerBoundInvariant_witness :
    ∃ a, (enqueue ⟨[], none⟩
        ⟨"m1", "user@example.com", "r1", "Re: report", 100⟩).alarm = some a ∧
      ∀ e ∈ (enqueue ⟨[], none⟩
        ⟨"m1", "user@example.com", "r1", "Re: report", 100⟩).jobs,
        a ≤ e.2.msg.sendAt :=
  (timerLowerBoundInvariant _ (Reach.enq _ _ Reach.empty)).2 (by decide)

/-! ### One fire of the alarm handler (claims C4 and C7) -/

theorem processEntry_drop {send : ReplyMessage → Bool} {now : Int}
    {key : String} {job : PendingJob}
    (hdue : job.msg.sendAt ≤ now) (hfail : send job.msg = false)
    (hmax : MAX_ATTEMPTS ≤ job.attempts + 1) :
    processEntry send now (key, job) = none := by
  simp [processEntry, not_lt.mpr hdue, hfail, hmax]

theorem processEntry_retry {send : ReplyMessage → Bool} {now : Int}
    {key : String} {job : PendingJob}
    (hdue : job.msg.sendAt ≤ now) (hfail : send job.msg = false)
    (hlt : job.attempts + 1 < MAX_ATTEMPTS) :
    processEntry send now (key, job) =
      some (key, ⟨{ job.msg with sendAt := now + backoffMs (job.attempts + 1) },
        job.attempts + 1⟩) := by
  simp [processEntry, not_lt.mpr hdue, hfail, not_le.mpr hlt]

theorem droppedEntry_some {send : ReplyMessage → Bool} {now : Int}
    {key : String} {job : PendingJob}
    (hdue : job.msg.sendAt ≤ now) (hfail : send job.msg = false)
    (hmax : MAX_ATTEMPTS ≤ job.attempts + 1) :
    droppedEntry send now (key, job) = some job.msg.reportId := by
  simp [droppedEntry, not_lt.mpr hdue, hfail, hmax]

/-- C4: when a due job's send attempt fails during a timer fire, its
attempts counter is incremented by one; if the new value reaches the
bound MAX_ATTEMPTS = 5 the job is deleted permanently, reported among the
dropped reports, and not rescheduled; otherwise the job is persisted with
the new sendAt = now + 5min·2^(newAttempts−1), and the backoff offsets are
exactly 5, 10, 20 and 40 minutes for new attempt counts 1 through 4. -/
theorem retryBackoffPolicy (send : ReplyMessage → Bool) (now : Int)
    (s : QueueState) (key : String) (job : PendingJob)
    (hnd : (s.jobs.map Prod.fst).Nodup)
    (hmem : (key, job) ∈ s.jobs)
    (hdue : job.msg.sendAt ≤ now)
    (hfail : send job.msg = false) :
    (MAX_ATTEMPTS ≤ job.attempts + 1 →
      (∀ j : PendingJob, (key, j) ∉ (alarm send now s).1.jobs) ∧
      job.msg.reportId ∈ (alarm send now s).2) ∧
    (job.attempts + 1 < MAX_ATTEMPTS →
      (key, ⟨{ job.msg with sendAt := now + backoffMs (job.attempts + 1) },
        job.attempts + 1⟩) ∈ (alarm send now s).1.jobs) ∧
    backoffMs 1 = 5 * 60 * 1000 ∧ backoffMs 2 = 10 * 60 * 1000 ∧
    backoffMs 3 = 20 * 60 * 1000 ∧ backoffMs 4 = 40 * 60 * 1000 := by
  rw [alarm_eq]
  dsimp only
  refine ⟨fun hmax => ⟨?_, ?_⟩, fun hlt => ?_, by decide, by decide, by decide,
    by decide⟩
  · intro j hj
    have hpe := mem_filterMap_processEntry hnd hmem hj
    rw [processEntry_drop hdue hfail hmax] at hpe
    cases hpe
  · exact List.mem_filterMap.mpr ⟨(key, job), hmem,
      droppedEntry_some hdue hfail hmax⟩
  · exact List.mem_filterMap.mpr ⟨(key, job), hmem,
      processEntry_retry hdue hfail hlt⟩

/-- Witness for `retryBackoffPolicy`: a job at attempts 4 whose 5th failed
attempt drops it, so its reportId appears in the dropped list. -/
theorem retryBackoffPolicy_witness :
    "r1" ∈ (alarm (fun _ => false) 100
      ⟨[("job:r1", ⟨⟨"m1", "user@example.com", "r1", "Re: report", 50⟩, 4⟩)],
        some 50⟩).2 :=
  ((retryBackoffPolicy (fun _ => false) 100
      ⟨[("job:r1", ⟨⟨"m1", "user@example.com", "r1", "Re: report", 50⟩, 4⟩)],
        some 50⟩
      "job:r1" ⟨⟨"m1", "user@example.com", "r1", "Re: report", 50⟩, 4⟩
      (by decide) (by decide) (by decide) (by decide)).1 (by decide)).2

/-- C7: a single timer-fire invocation deletes every due job whose send
succeeds, leaves every not-yet-due job unchanged (same sendAt and
attempts), and afterwards the timer equals the minimum sendAt over the
remaining (kept or rescheduled) jobs, or is unset when none remain. -/
theorem alarmFrameEffect (send : ReplyMessage → Bool) (now : Int)
    (s : QueueState) (hnd : (s.jobs.map Prod.fst).Nodup) :
    (∀ e ∈ s.jobs, e.2.msg.sendAt ≤ now → send e.2.msg = true →
      ∀ j : PendingJob, (e.1, j) ∉ (alarm send now s).1.jobs) ∧
    (∀ e ∈ s.jobs, now < e.2.msg.sendAt → e ∈ (alarm send now s).1.jobs) ∧
    ((alarm send now s).1.jobs = [] → (alarm send now s).1.alarm = none) ∧
    ((alarm send now s).1.jobs ≠ [] →
      ∃ a, (alarm send now s).1.alarm = some a ∧
        (∀ e ∈ (alarm send now s).1.jobs, a ≤ e.2.msg.sendAt) ∧
        ∃ e ∈ (alarm send now s).1.jobs, e.2.msg.sendAt = a) := by
  rw [alarm_eq]
  dsimp only
  refine ⟨?_, ?_, ?_, ?_⟩
  · intro e he hde hok j hj
    obtain ⟨k, job⟩ := e
    have hpe := mem_filterMap_processEntry hnd he hj
    simp only at hde hok
    simp [processEntry, not_lt.mpr hde, hok] at hpe
  · intro e he hnotdue
    refine List.mem_filterMap.mpr ⟨e, he, ?_⟩
    simp [processEntry, hnotdue]
  · intro hnil
    rw [hnil]
    rfl
  · intro hne
    have hmapne : ((s.jobs.filterMap (processEntry send now)).map
        (fun e => e.2.msg.sendAt)) ≠ [] :=
      fun hc => hne (List.map_eq_nil_iff.mp hc)
    rcases listMin_isSome hmapne with ⟨a, ha⟩
    refine ⟨a, ha, ?_, ?_⟩
    · intro e he
      exact listMin_le ha _ (List.mem_map_of_mem _ he)
    · rcases List.mem_map.mp (listMin_mem ha) with ⟨e, he, hev⟩
      exact ⟨e, he, hev⟩

/-- Witness for `alarmFrameEffect`: with one due job (send succeeds) and
one far-future job, the far-future job survives one fire unchanged. -/
theorem alarmFrameEffect_witness :
    ("job:b", (⟨⟨"mb", "user@example.com", "b", "Re: b", 999999⟩, 0⟩ : PendingJob))
      ∈ (alarm (fun _ => true) 1000
        ⟨[("job:a", ⟨⟨"ma", "user@example.com", "a", "Re: a", 500⟩, 0⟩),
          ("job:b", ⟨⟨"mb", "user@example.com", "b", "Re: b", 999999⟩, 0⟩)],
          some 500⟩).1.jobs :=
  (alarmFrameEffect (fun _ => true) 1000
      ⟨[("job:a", ⟨⟨"ma", "user@example.com", "a", "Re: a", 500⟩, 0⟩),
        ("job:b", ⟨⟨"mb", "user@example.com", "b", "Re: b", 999999⟩, 0⟩)],
        some 500⟩ (by decide)).2.1
    ("job:b", ⟨⟨"mb", "user@example.com", "b", "Re: b", 999999⟩, 0⟩)
    (by decide) (by decide)

/-! ### Enqueue semantics (claims C8 and C9) -/

/-- `ctx.storage.get`-style point lookup on the job namespace. -/
def findJob : List (String × PendingJob) → String → Option PendingJob
  | [], _ => none
  | e :: es, k => if e.1 == k then some e.2 else findJob es k

theorem findJob_replace {key : String} {j : PendingJob}
    {l : List (String × PendingJob)}
    (h : l.any (fun e => e.1 == key) = true) :
    findJob (l.map (fun e => if e.1 == key then (key, j) else e)) key =
      some j := by
  induction l with
  | nil => simp at h
  | cons e es ih =>
    rw [List.map_cons]
    by_cases hk : (e.1 == key) = true
    · rw [if_pos hk]
      simp [findJob]
    · rw [if_neg hk]
      rw [List.any_cons] at h
      rw [Bool.or_eq_true] at h
      rcases h with h | h
      · exact absurd h hk
      · simp only [findJob, hk, if_false]
        exact ih h

theorem findJob_append_self {key : String} {j : PendingJob}
    {l : List (String × PendingJob)}
    (h : l.any (fun e => e.1 == key) = false) :
    findJob (l ++ [(key, j)]) key = some j := by
  induction l with
  | nil => simp [findJob]
  | cons e es ih =>
    rw [List.any_cons, Bool.or_eq_false_iff] at h
    rw [List.cons_append]
    simp only [findJob, h.1, if_false]
    exact ih h.2

theorem findJob_storagePut_self (l : List (String × PendingJob))
    (key : String) (j : PendingJob) :
    findJob (storagePut l key j) key = some j := by
  unfold storagePut
  split
  · exact findJob_replace ‹_›
  · rename_i h
    rw [Bool.not_eq_true] at h
    exact findJob_append_self h

theorem findJob_replace_other {key k : String} {j : PendingJob}
    (hkk : (key == k) = false) (l : List (String × PendingJob)) :
    findJob (l.map (fun e => if e.1 == key then (key, j) else e)) k =
      findJob l k := by
  induction l with
  | nil => rfl
  | cons e es ih =>
    rw [List.map_cons]
    by_cases h1 : (e.1 == key) = true
    · rw [if_pos h1]
      have h2 : (e.1 == k) = false := by
        rw [beq_iff_eq] at h1
        rw [h1]
        exact hkk
      simp only [findJob]
      rw [if_neg (by simp [hkk]), if_neg (by simp [h2])]
      exact ih
    · rw [if_neg h1]
      simp only [findJob]
      by_cases h2 : (e.1 == k) = true
      · rw [if_pos h2, if_pos h2]
      · rw [if_neg h2, if_neg h2]
        exact ih

theorem findJob_append_other {key k : String} {j : PendingJob}
    (hkk : (key == k) = false) (l : List (String × PendingJob)) :
    findJob (l ++ [(key, j)]) k = findJob l k := by
  induction l with
  | nil =>
    simp only [List.nil_append, findJob]
    rw [if_neg (by simp [hkk])]
  | cons e es ih =>
    rw [List.cons_append]
    simp only [findJob]
    by_cases h2 : (e.1 == k) = true
    · rw [if_pos h2, if_pos h2]
    · rw [if_neg h2, if_neg h2]
      exact ih

theorem findJob_storagePut_other {k key : String} (hk : k ≠ key)
    (l : List (String × PendingJob)) (j : PendingJob) :
    findJob (storagePut l key j) k = findJob l k := by
  have hkk : (key == k) = false := by
    rw [beq_eq_false_iff_ne]
    exact fun hc => hk hc.symm
  unfold storagePut
  split
  · exact findJob_replace_other hkk l
  · exact findJob_append_other hkk l

theorem map_fst_replace (l : List (String × PendingJob)) (key : String)
    (j : PendingJob) :
    (l.map (fun e => if e.1 == key then (key, j) else e)).map Prod.fst =
      l.map Prod.fst := by
  induction l with
  | nil => rfl
  | cons e es ih =>
    rw [List.map_cons, List.map_cons, List.map_cons, ih]
    congr 1
    by_cases h1 : (e.1 == key) = true
    · rw [if_pos h1]
      exact (beq_iff_eq.mp h1).symm
    · rw [if_neg h1]

theorem storagePut_keys_nodup {l : List (String × PendingJob)}
    {key : String} {j : PendingJob} (hnd : (l.map Prod.fst).Nodup) :
    ((storagePut l key j).map Prod.fst).Nodup := by
  unfold storagePut
  split
  · rw [map_fst_replace]
    exact hnd
  · rename_i h
    have hk : key ∉ l.map Prod.fst := by
      intro hc
      rcases List.mem_map.mp hc with ⟨e, he, hke⟩
      exact h (List.any_eq_true.mpr ⟨e, he, by simp [hke]⟩)
    rw [List.map_append]
    simp only [List.map_cons, List.map_nil]
    rw [List.nodup_append]
    exact ⟨hnd, List.nodup_singleton key, by simpa using hk⟩

theorem filter_key_replace_nil {key : String} {j : PendingJob}
    {es : List (String × PendingJob)} (h : key ∉ es.map Prod.fst) :
    (es.map (fun e => if e.1 == key then (key, j) else e)).filter
      (fun e => e.1 == key) = [] := by
  induction es with
  | nil => rfl
  | cons e es ih =>
    rw [List.map_cons, List.mem_cons] at h
    push_neg at h
    have h1 : (e.1 == key) = false := by
      simp only [beq_eq_false_iff_ne, ne_eq]
      exact fun hc => h.1 hc.symm
    rw [List.map_cons, if_neg (by simp [h1]), List.filter_cons_of_neg
      (by simp [h1])]
    exact ih h.2

theorem filter_key_nil {key : String} {es : List (String × PendingJob)}
    (h : es.any (fun e => e.1 == key) = false) :
    es.filter (fun e => e.1 == key) = [] := by
  induction es with
  | nil => rfl
  | cons e es ih =>
    rw [List.any_cons, Bool.or_eq_false_iff] at h
    rw [List.filter_cons_of_neg (by simp [h.1])]
    exact ih h.2

theorem filter_key_storagePut (l : List (String × PendingJob))
    (key : String) (j : PendingJob) (hnd : (l.map Prod.fst).Nodup) :
    ((storagePut l key j).filter (fun e => e.1 == key)).length = 1 := by
  unfold storagePut
  split
  · rename_i hany
    induction l with
    | nil => simp at hany
    | cons e es ih =>
      rw [List.map_cons, List.nodup_cons] at hnd
      rw [List.map_cons]
      by_cases h1 : (e.1 == key) = true
      · rw [if_pos h1]
        rw [List.filter_cons_of_pos (by simp)]
        have hkes : key ∉ es.map Prod.fst := by
          rw [beq_iff_eq] at h1
          rw [← h1]
          exact hnd.1
        rw [filter_key_replace_nil hkes]
        rfl
      · rw [if_neg h1]
        rw [List.filter_cons_of_neg (by simp [h1])]
        rw [List.any_cons, Bool.or_eq_true] at hany
        rcases hany with hany | hany
        · exact absurd hany h1
        · exact ih hnd.2 hany
  · rename_i hany
    rw [Bool.not_eq_true] at hany
    rw [List.filter_append, filter_key_nil hany]
    simp

/-- C8: enqueue stores `PendingJob{message, attempts: 0}` under the key
derived from `message.reportId`; a second enqueue with the same reportId
overwrites the prior pending job (resetting attempts to 0) instead of
creating a duplicate entry, and entries under other keys are untouched. -/
theorem enqueueOverwrites (s : QueueState) (m : ReplyMessage)
    (hnd : (s.jobs.map Prod.fst).Nodup) :
    findJob (enqueue s m).jobs (jobKey m.reportId) = some ⟨m, 0⟩ ∧
    (∀ k, k ≠ jobKey m.reportId →
      findJob (enqueue s m).jobs k = findJob s.jobs k) ∧
    ((enqueue s m).jobs.map Prod.fst).Nodup ∧
    ((enqueue s m).jobs.filter
      (fun e => e.1 == jobKey m.reportId)).length = 1 := by
  rw [enqueue_jobs]
  exact ⟨findJob_storagePut_self _ _ _,
    fun k hk => findJob_storagePut_other hk _ _,
    storagePut_keys_nodup hnd,
    filter_key_storagePut _ _ _ hnd⟩

/-- Witness for `enqueueOverwrites`: enqueueing reportId "r1" twice leaves
a single entry holding the second message with attempts reset to 0. -/
theorem enqueueOverwrites_witness :
    findJob (enqueue (enqueue ⟨[], none⟩
        ⟨"m1", "user@example.com", "r1", "Re: report", 100⟩)
        ⟨"m2", "user@example.com", "r1", "Re: report", 200⟩).jobs
      (jobKey "r1") =
      some ⟨⟨"m2", "user@example.com", "r1", "Re: report", 200⟩, 0⟩ ∧
    ((enqueue (enqueue ⟨[], none⟩
        ⟨"m1", "user@example.com", "r1", "Re: report", 100⟩)
        ⟨"m2", "user@example.com", "r1", "Re: report", 200⟩).jobs.filter
      (fun e => e.1 == jobKey "r1")).length = 1 :=
  ⟨(enqueueOverwrites (enqueue ⟨[], none⟩
      ⟨"m1", "user@example.com", "r1", "Re: report", 100⟩)
      ⟨"m2", "user@example.com", "r1", "Re: report", 200⟩ (by decide)).1,
   (enqueueOverwrites (enqueue ⟨[], none⟩
      ⟨"m1", "user@example.com", "r1", "Re: report", 100⟩)
      ⟨"m2", "user@example.com", "r1", "Re: report", 200⟩ (by decide)).2.2.2⟩

/-- C9: enqueue moves the timer to `message.sendAt` exactly when the timer
is unset or set to a strictly later time; otherwise the timer value is
left unchanged. -/
theorem enqueueTimerReschedule (s : QueueState) (m : ReplyMessage) :
    (s.alarm = none → (enqueue s m).alarm = some m.sendAt) ∧
    (∀ a, s.alarm = some a → m.sendAt < a →
      (enqueue s m).alarm = some m.sendAt) ∧
    (∀ a, s.alarm = some a → a ≤ m.sendAt →
      (enqueue s m).alarm = some a) := by
  refine ⟨fun h => ?_, fun a h hlt => ?_, fun a h hle => ?_⟩
  · rw [enqueue_alarm, h]
  · rw [enqueue_alarm, h]
    dsimp only
    rw [if_pos hlt]
  · rw [enqueue_alarm, h]
    dsimp only
    rw [if_neg (not_lt.mpr hle)]

/-- Witness for `enqueueTimerReschedule`: with the timer at 100, enqueueing
sendAt 40 moves the timer to 40. -/
theorem enqueueTimerReschedule_witness :
    (enqueue ⟨[("job:r1", ⟨⟨"m1", "user@example.com", "r1", "Re: r", 100⟩, 0⟩)],
        some 100⟩
      ⟨"m2", "user@example.com", "r2", "Re: r", 40⟩).alarm = some 40 :=
  (enqueueTimerReschedule
      ⟨[("job:r1", ⟨⟨"m1", "user@example.com", "r1", "Re: r", 100⟩, 0⟩)],
        some 100⟩
      ⟨"m2", "user@example.com", "r2", "Re: r", 40⟩).2.1 100 rfl (by decide)

/-! ## JavaScript runtime values

Values produced by `JSON.parse` (src/tlsrpt.ts) and by `fast-xml-parser`
(src/dmarc.ts). An absent property / `undefined` is modelled by
`Option.none` at use sites; numbers are exact integers. -/

inductive JSVal where
  | null
  | bool (b : Bool)
  | num (n : Int)
  | str (s : String)
  | arr (xs : List JSVal)
  | obj (fields : List (String × JSVal))
  deriving Repr

/-- First-match association lookup among an object's fields. -/
def lookupField : List (String × JSVal) → String → Option JSVal
  | [], _ => none
  | (k', v) :: fs, k => if k' == k then some v else lookupField fs k

/-- JS property read `v[k]` (and the `"k" in v` test via `isSome`):
absent on every non-object value, including arrays, whose JSON string
keys do not exist. -/
def getKey : JSVal → String → Option JSVal
  | .obj fs, k => lookupField fs k
  | _, _ => none

/-- The JS test `typeof v === "object" && v !== null`: true exactly for
objects and arrays (JSON values carry no functions). -/
def isObjNonNull : JSVal → Bool
  | .obj _ => true
  | .arr _ => true
  | _ => false

/-- JS truthiness test (negated): `!v`. `NaN` is also falsy in JS but no
`NaN` value is produced by the modelled parsers. -/
def isFalsy : JSVal → Bool
  | .null => true
  | .bool b => !b
  | .num n => n == 0
  | .str s => s == ""
  | _ => false

/-- The `??` (nullish-coalescing) operator applied to a property read:
falls back to the default on an absent property or a `null` value. -/
def nullishD (v : Option JSVal) (d : JSVal) : JSVal :=
  match v with
  | some .null => d
  | some x => x
  | none => d

/-! ## TLS-RPT parsing (src/tlsrpt.ts) -/

/-- `isTLSReport` (src/tlsrpt.ts lines 3–16): top-level non-null object
with string `organization-name` and `report-id` and a non-null
object-typed `date-range` (note: `typeof` also calls arrays "object"). -/
def isTLSReport (v : JSVal) : Bool :=
  isObjNonNull v &&
  (match getKey v "organization-name" with
   | some (.str _) => true
   | _ => false) &&
  (match getKey v "report-id" with
   | some (.str _) => true
   | _ => false) &&
  (match getKey v "date-range" with
   | some w => isObjNonNull w
   | none => false)

/-- `parseTLSReport` (src/tlsrpt.ts lines 18–30). The `JSON.parse` call is
modelled by the `Option JSVal` argument: `none` when the parse threw.
On success the parsed value itself is returned. -/
def parseTLSReport (parsed : Option JSVal) : Option JSVal :=
  match parsed with
  | none => none
  | some v => if isTLSReport v then some v else none

/-- Claim-side validity for C5, following the spec's words: a top-level
JSON object whose `organization-name` and `report-id` are strings and
whose `date-range` is a JSON object (a JSON array is not an object under
this reading). -/
def specTLSValid (v : JSVal) : Bool :=
  match v with
  | .obj _ =>
    (match getKey v "organization-name" with
     | some (.str _) => true
     | _ => false) &&
    (match getKey v "report-id" with
     | some (.str _) => true
     | _ => false) &&
    (match getKey v "date-range" with
     | some (.obj _) => true
     | _ => false)
  | _ => false

/-- Amended claim-side validity: `date-range` may be any non-null value of
JS object type, i.e. a JSON object or a JSON array. -/
def specTLSValidAmended (v : JSVal) : Bool :=
  match v with
  | .obj _ =>
    (match getKey v "organization-name" with
     | some (.str _) => true
     | _ => false) &&
    (match getKey v "report-id" with
     | some (.str _) => true
     | _ => false) &&
    (match getKey v "date-range" with
     | some (.obj _) => true
     | some (.arr _) => true
     | _ => false)
  | _ => false

theorem isTLSReport_eq_amended (v : JSVal) :
    isTLSReport v = specTLSValidAmended v := by
  cases v with
  | null => rfl
  | bool b => rfl
  | num n => rfl
  | str s => rfl
  | arr xs => rfl
  | obj fs =>
    simp only [isTLSReport, specTLSValidAmended, isObjNonNull, Bool.true_and]
    rcases h : getKey (JSVal.obj fs) "date-range" with _ | w
    · rfl
    · cases w <;> rfl

/-- C5 (amended): `parseTLSReport` returns null exactly when the JSON
parse failed, or the top-level value is not an object (arrays, strings,
numbers, null), or it is an object missing or wrongly typing
`organization-name` (string), `report-id` (string), or `date-range`
(which must be a non-null value of JS object type, so a JSON object or —
unlike the claim's reading — also a JSON array); every other input yields
a non-null report. -/
theorem parseTLSReport_none_iff (p : Option JSVal) :
    parseTLSReport p = none ↔
      (p = none ∨ ∃ v, p = some v ∧ specTLSValidAmended v = false) := by
  cases p with
  | none => simp [parseTLSReport]
  | some v =>
    simp only [parseTLSReport]
    by_cases h : isTLSReport v = true
    · rw [if_pos h]
      constructor
      · intro hc
        cases hc
      · rintro (hc | ⟨w, hw, hval⟩)
        · cases hc
        · injection hw with hw
          subst hw
          rw [isTLSReport_eq_amended] at h
          rw [h] at hval
          cases hval
    · rw [if_neg h]
      constructor
      · intro _
        right
        refine ⟨v, rfl, ?_⟩
        rw [← isTLSReport_eq_amended]
        rw [Bool.not_eq_true] at h
        exact h
      · intro _
        rfl

/-- C5 counterexample: the claim as stated is false at the input object
whose `date-range` is the JSON array `[]` — the claim's list of
null-returning inputs includes it ("wrongly typing date-range (object)"),
yet the code's `typeof` check accepts arrays and returns the report. -/
theorem parseTLSReport_dateRangeArray_counterexample :
    parseTLSReport (some (.obj [("organization-name", .str "example.org"),
      ("report-id", .str "tls-1"), ("date-range", .arr [])])) =
      some (.obj [("organization-name", .str "example.org"),
        ("report-id", .str "tls-1"), ("date-range", .arr [])]) ∧
    specTLSValid (.obj [("organization-name", .str "example.org"),
      ("report-id", .str "tls-1"), ("date-range", .arr [])]) = false :=
  ⟨rfl, rfl⟩

/-- C10: whenever `parseTLSReport` returns a non-null result, that result
is exactly the `JSON.parse` value: every field of the input object,
validated or not, is passed through verbatim with no normalization,
defaulting, or removal. -/
theorem parseTLSReport_verbatim (p : Option JSVal) (v : JSVal)
    (h : parseTLSReport p = some v) : p = some v := by
  cases p with
  | none => cases h
  | some w =>
    simp only [parseTLSReport] at h
    by_cases hw : isTLSReport w = true
    · rw [if_pos hw] at h
      exact h
    · rw [if_neg hw] at h
      cases h

/-- Witness for `parseTLSReport_verbatim`: a valid report carrying an
undocumented extra field comes back verbatim. -/
theorem parseTLSReport_verbatim_witness :
    (some (JSVal.obj [("organization-name", .str "example.org"),
      ("report-id", .str "tls-1"), ("date-range", .obj []),
      ("extra-unvalidated", .num 7)]) : Option JSVal) =
      some (.obj [("organization-name", .str "example.org"),
        ("report-id", .str "tls-1"), ("date-range", .obj []),
        ("extra-unvalidated", .num 7)]) :=
  parseTLSReport_verbatim
    (some (.obj [("organization-name", .str "example.org"),
      ("report-id", .str "tls-1"), ("date-range", .obj []),
      ("extra-unvalidated", .num 7)]))
    (.obj [("organization-name", .str "example.org"),
      ("report-id", .str "tls-1"), ("date-range", .obj []),
      ("extra-unvalidated", .num 7)]) rfl

/-! ## DMARC aggregate report parsing (src/dmarc.ts) -/

/-- Model of `String.prototype.toLowerCase` as used on auth result values;
for the ASCII keywords compared against ("pass", "fail", "temperror") the
ASCII mapping agrees with the JS one. -/
def jsToLower (s : String) : String := ⟨s.data.map Char.toLower⟩

mutual

/-- Model of the JS `String()` coercion that `parseInt` applies to its
argument. Numbers are exact integers, so `"1.5"`-style renderings of
non-integers do not arise. -/
def jsToString : JSVal → String
  | .null => "null"
  | .bool true => "true"
  | .bool false => "false"
  | .num n => toString n
  | .str s => s
  | .arr xs => jsArrJoin xs
  | .obj _ => "[object Object]"

/-- `Array.prototype.toString`, i.e. `join(",")`; a null element renders
as the empty string. -/
def jsArrJoin : List JSVal → String
  | [] => ""
  | [x] => jsElemString x
  | x :: y :: xs => jsElemString x ++ "," ++ jsArrJoin (y :: xs)

def jsElemString : JSVal → String
  | .null => ""
  | v => jsToString v

end

/-- Hex digit value for the `0x` branch of `parseInt`. -/
def hexDigitVal (c : Char) : Nat :=
  if c.isDigit then c.toNat - '0'.toNat
  else if 'a' ≤ c ∧ c ≤ 'f' then c.toNat - 'a'.toNat + 10
  else c.toNat - 'A'.toNat + 10

def isHexDigitCh (c : Char) : Bool :=
  c.isDigit || ('a' ≤ c && c ≤ 'f') || ('A' ≤ c && c ≤ 'F')

def natOfDigits (base : Nat) (cs : List Char) : Nat :=
  cs.foldl (fun a c => a * base + hexDigitVal c) 0

/-- Digit-run parsing of JS `parseInt` after sign handling: an `0x`/`0X`
marker switches to hex, otherwise the longest decimal digit run is taken;
no digits means `NaN` (modelled `none`). -/
def parseIntDigits (cs : List Char) : Option Nat :=
  match cs with
  | '0' :: c :: rest =>
    if c == 'x' || c == 'X' then
      let ds := rest.takeWhile isHexDigitCh
      if ds.isEmpty then none else some (natOfDigits 16 ds)
    else
      some (natOfDigits 10 (cs.takeWhile Char.isDigit))
  | _ =>
    let ds := cs.takeWhile Char.isDigit
    if ds.isEmpty then none else some (natOfDigits 10 ds)

/-- Model of JS `parseInt(s)` with no radix argument: skip leading
whitespace, read an optional sign, then `parseIntDigits`. The result is
an exact integer; `none` models `NaN`. -/
def jsParseInt (s : String) : Option Int :=
  let cs := s.toList.dropWhile Char.isWhitespace
  match cs with
  | '-' :: rest => (parseIntDigits rest).map (fun n => -(n : Int))
  | '+' :: rest => (parseIntDigits rest).map (fun n => (n : Int))
  | _ => (parseIntDigits cs).map (fun n => (n : Int))

/-- `isXMLDMARCFeedback` (src/dmarc.ts lines 93–105): a non-null object
that either carries a `feedback` key holding any non-null object-typed
value (the wrapper's contents are not inspected), or has
`report_metadata` or `policy_published` at top level. -/
def isXMLDMARCFeedback (v : JSVal) : Bool :=
  if !isObjNonNull v then false
  else if (match getKey v "feedback" with
           | some f => isObjNonNull f
           | none => false) then true
  else (getKey v "report_metadata").isSome ||
    (getKey v "policy_published").isSome

/-- `const feedback = parsed.feedback ?? parsed`. -/
def feedbackOf (v : JSVal) : JSVal :=
  match getKey v "feedback" with
  | some .null => v
  | some f => f
  | none => v

/-- `!records ? [] : Array.isArray(records) ? records : [records]` applied
to `feedback.record`. -/
def recordsArray (feedback : JSVal) : List JSVal :=
  match getKey feedback "record" with
  | none => []
  | some v =>
    if isFalsy v then []
    else
      match v with
      | .arr xs => xs
      | w => [w]

/-- `authResults.dkim ?? []` (or `.spf`), then
`Array.isArray(x) ? x : [x]`. -/
def authElems (o : Option JSVal) : List JSVal :=
  match o with
  | none => []
  | some .null => []
  | some (.arr xs) => xs
  | some v => [v]

/-- `typeof r === "string" ? r.toLowerCase() : ""` applied to
`entry.result`. -/
def resultLower (e : JSVal) : String :=
  match getKey e "result" with
  | some (.str s) => jsToLower s
  | _ => ""

/-- The six mutable counters of `parseDMARCReportFromString`. -/
structure AuthCounters where
  dkimPass : Nat
  dkimFail : Nat
  dkimTemperror : Nat
  spfPass : Nat
  spfFail : Nat
  spfTemperror : Nat
  deriving Repr, DecidableEq

/-- The DKIM if/else chain of the record loop (src/dmarc.ts lines
150–161). -/
def bumpDkim (c : AuthCounters) (e : JSVal) : AuthCounters :=
  let result := resultLower e
  if result == "pass" then { c with dkimPass := c.dkimPass + 1 }
  else if result == "fail" then { c with dkimFail := c.dkimFail + 1 }
  else if result == "temperror" then
    { c with dkimTemperror := c.dkimTemperror + 1 }
  else c

/-- The SPF if/else chain of the record loop (src/dmarc.ts lines
168–179). -/
def bumpSpf (c : AuthCounters) (e : JSVal) : AuthCounters :=
  let result := resultLower e
  if result == "pass" then { c with spfPass := c.spfPass + 1 }
  else if result == "fail" then { c with spfFail := c.spfFail + 1 }
  else if result == "temperror" then
    { c with spfTemperror := c.spfTemperror + 1 }
  else c

/-- One iteration of the `for (const record of recordsArray)` loop
(src/dmarc.ts lines 139–180): skip the record when `auth_results` is
falsy, otherwise run the DKIM and SPF chains over the normalized entry
lists. -/
def tallyRecord (c : AuthCounters) (record : JSVal) : AuthCounters :=
  match getKey record "auth_results" with
  | none => c
  | some a =>
    if isFalsy a then c
    else
      let c1 := (authElems (getKey a "dkim")).foldl bumpDkim c
      (authElems (getKey a "spf")).foldl bumpSpf c1

/-- `DMARCReport` from `src/types.ts`. The string-typed fields keep the
raw runtime value (`JSVal`) since the parser never coerces them; the
dates are `Option Int` with `none` modelling `NaN`. -/
structure DMARCReport where
  reportId : JSVal
  orgName : JSVal
  domain : JSVal
  beginDate : Option Int
  endDate : Option Int
  dkimPass : Nat
  dkimFail : Nat
  dkimTemperror : Nat
  spfPass : Nat
  spfFail : Nat
  spfTemperror : Nat
  policyP : JSVal
  rawXml : String
  deriving Repr

/-- `parseDMARCReportFromString` (src/dmarc.ts lines 107–197). The
`fast-xml-parser` call is modelled by the already-parsed `JSVal`
argument; `xml` is the raw source text kept in `rawXml`. -/
def parseDMARCReportFromString (parsed : JSVal) (xml : String) :
    Except String DMARCReport :=
  if !isXMLDMARCFeedback parsed then .error "Invalid XML structure"
  else
    let feedback := feedbackOf parsed
    let reportMetadata := getKey feedback "report_metadata"
    let policyPublished := getKey feedback "policy_published"
    let c := (recordsArray feedback).foldl tallyRecord ⟨0, 0, 0, 0, 0, 0⟩
    .ok
      { reportId := nullishD
          (reportMetadata.bind (fun m => getKey m "report_id")) (.str ""),
        orgName := nullishD
          (reportMetadata.bind (fun m => getKey m "org_name")) (.str ""),
        domain := nullishD
          (policyPublished.bind (fun p => getKey p "domain")) (.str ""),
        beginDate := jsParseInt (jsToString (nullishD
          ((reportMetadata.bind (fun m => getKey m "date_range")).bind
            (fun d => getKey d "begin")) (.str "0"))),
        endDate := jsParseInt (jsToString (nullishD
          ((reportMetadata.bind (fun m => getKey m "date_range")).bind
            (fun d => getKey d "end")) (.str "0"))),
        dkimPass := c.dkimPass,
        dkimFail := c.dkimFail,
        dkimTemperror := c.dkimTemperror,
        spfPass := c.spfPass,
        spfFail := c.spfFail,
        spfTemperror := c.spfTemperror,
        policyP := nullishD
          (policyPublished.bind (fun p => getKey p "p")) (.str "none"),
        rawXml := xml }

/-- Claim-side recogniser for C2, following the spec's words: either a
wrapping container (`feedback`) whose child holds `report_metadata` or
`policy_published`, or those elements directly at the top level. -/
def claimRecognizedStructure (v : JSVal) : Bool :=
  (match getKey v "feedback" with
   | some w => (getKey w "report_metadata").isSome ||
       (getKey w "policy_published").isSome
   | none => false) ||
  (getKey v "report_metadata").isSome ||
  (getKey v "policy_published").isSome

theorem isXMLDMARCFeedback_iff (v : JSVal) :
    isXMLDMARCFeedback v = true ↔
      (isObjNonNull v = true ∧
        ((∃ w, getKey v "feedback" = some w ∧ isObjNonNull w = true) ∨
          (getKey v "report_metadata").isSome = true ∨
          (getKey v "policy_published").isSome = true)) := by
  unfold isXMLDMARCFeedback
  cases hobj : isObjNonNull v with
  | false => simp [hobj]
  | true =>
    simp only [hobj, Bool.not_true, Bool.false_eq_true, if_false]
    cases hf : getKey v "feedback" with
    | none => simp [hf]
    | some w =>
      by_cases hw : isObjNonNull w = true
      · simp [hw]
      · simp [hw]

/-- C2 (amended): `parseDMARCReportFromString` fails — and it can only
fail with the InvalidStructure error — exactly when the parsed document
is not a non-null object, or it both lacks a `feedback` key holding a
non-null object-typed value (the wrapper's contents are never inspected,
unlike the claim's reading) and lacks `report_metadata` /
`policy_published` at the top level; for every other parsed document it
returns a report without raising. -/
theorem parseDMARC_invalidStructure_iff (v : JSVal) (xml : String) :
    (parseDMARCReportFromString v xml = .error "Invalid XML structure" ↔
      ¬(isObjNonNull v = true ∧
        ((∃ w, getKey v "feedback" = some w ∧ isObjNonNull w = true) ∨
          (getKey v "report_metadata").isSome = true ∨
          (getKey v "policy_published").isSome = true))) ∧
    ∀ e, parseDMARCReportFromString v xml = .error e →
      e = "Invalid XML structure" := by
  unfold parseDMARCReportFromString
  cases hx : isXMLDMARCFeedback v with
  | true =>
    rw [if_neg (by simp [hx])]
    constructor
    · constructor
      · intro hc
        cases hc
      · intro hc
        exact absurd ((isXMLDMARCFeedback_iff v).mp hx) hc
    · intro e hc
      cases hc
  | false =>
    rw [if_pos (by simp [hx])]
    constructor
    · constructor
      · intro _ hc
        rw [← isXMLDMARCFeedback_iff] at hc
        rw [hx] at hc
        cases hc
      · intro _
        rfl
    · intro e hc
      injection hc with hc
      exact hc.symm

/-- C2 counterexample: the claim as stated is false at the parsed
document `(feedback: (empty object))` — it has no wrapping container
whose child holds `report_metadata`/`policy_published` and no such
top-level elements, so the claim demands the InvalidStructure failure,
yet the code accepts it (any non-null object under `feedback` passes)
and returns a report. -/
theorem parseDMARC_emptyWrapper_counterexample :
    (parseDMARCReportFromString (.obj [("feedback", .obj [])]) "").isOk =
      true ∧
    claimRecognizedStructure (.obj [("feedback", .obj [])]) = false :=
  ⟨rfl, rfl⟩

/-- Witness for `parseDMARC_invalidStructure_iff`: a non-object top-level
value fails with the InvalidStructure error. -/
theorem parseDMARC_invalidStructure_iff_witness :
    parseDMARCReportFromString (.num 3) "" =
      .error "Invalid XML structure" :=
  (parseDMARC_invalidStructure_iff (.num 3) "").1.mpr
    (fun hc => nomatch hc.1)

/-! ### Auth-result counting (claim C3) -/

/-- A record's DKIM (or SPF) auth-result entry list, as the claim's
"entries across all records" denotes them: skipped when `auth_results`
is falsy, otherwise the normalized element list. -/
def recordAuthEntries (auth : String) (record : JSVal) : List JSVal :=
  match getKey record "auth_results" with
  | none => []
  | some a => if isFalsy a then [] else authElems (getKey a auth)

/-- All DKIM (or SPF) auth-result entries of a parsed document. -/
def docAuthEntries (auth : String) (v : JSVal) : List JSVal :=
  (recordsArray (feedbackOf v)).flatMap (recordAuthEntries auth)

/-- Claim-side counter: the number of entries whose result string
lower-cases to `target`. -/
def specCountResult (es : List JSVal) (target : String) : Nat :=
  es.countP (fun e => resultLower e == target)

theorem foldl_bumpDkim (es : List JSVal) (c : AuthCounters) :
    es.foldl bumpDkim c =
      ⟨c.dkimPass + specCountResult es "pass",
       c.dkimFail + specCountResult es "fail",
       c.dkimTemperror + specCountResult es "temperror",
       c.spfPass, c.spfFail, c.spfTemperror⟩ := by
  induction es generalizing c with
  | nil => simp [specCountResult]
  | cons e es ih =>
    rw [List.foldl_cons, ih]
    by_cases h1 : resultLower e = "pass"
    · simp [bumpDkim, specCountResult, List.countP_cons, h1]
      omega
    · by_cases h2 : resultLower e = "fail"
      · simp [bumpDkim, specCountResult, List.countP_cons, h1, h2]
        omega
      · by_cases h3 : resultLower e = "temperror"
        · simp [bumpDkim, specCountResult, List.countP_cons, h1, h2, h3]
          omega
        · simp [bumpDkim, specCountResult, List.countP_cons, h1, h2, h3]

theorem foldl_bumpSpf (es : List JSVal) (c : AuthCounters) :
    es.foldl bumpSpf c =
      ⟨c.dkimPass, c.dkimFail, c.dkimTemperror,
       c.spfPass + specCountResult es "pass",
       c.spfFail + specCountResult es "fail",
       c.spfTemperror + specCountResult es "temperror"⟩ := by
  induction es generalizing c with
  | nil => simp [specCountResult]
  | cons e es ih =>
    rw [List.foldl_cons, ih]
    by_cases h1 : resultLower e = "pass"
    · simp [bumpSpf, specCountResult, List.countP_cons, h1]
      omega
    · by_cases h2 : resultLower e = "fail"
      · simp [bumpSpf, specCountResult, List.countP_cons, h1, h2]
        omega
      · by_cases h3 : resultLower e = "temperror"
        · simp [bumpSpf, specCountResult, List.countP_cons, h1, h2, h3]
          omega
        · simp [bumpSpf, specCountResult, List.countP_cons, h1, h2, h3]

theorem tallyRecord_eq (c : AuthCounters) (record : JSVal) :
    tallyRecord c record =
      ⟨c.dkimPass + specCountResult (recordAuthEntries "dkim" record) "pass",
       c.dkimFail + specCountResult (recordAuthEntries "dkim" record) "fail",
       c.dkimTemperror +
         specCountResult (recordAuthEntries "dkim" record) "temperror",
       c.spfPass + specCountResult (recordAuthEntries "spf" record) "pass",
       c.spfFail + specCountResult (recordAuthEntries "spf" record) "fail",
       c.spfTemperror +
         specCountResult (recordAuthEntries "spf" record) "temperror"⟩ := by
  unfold tallyRecord recordAuthEntries
  cases h : getKey record "auth_results" with
  | none => simp [specCountResult]
  | some a =>
    by_cases hf : isFalsy a = true
    · simp [hf, specCountResult]
    · simp only [hf, Bool.false_eq_true, if_false]
      rw [foldl_bumpDkim, foldl_bumpSpf]

theorem foldl_tallyRecord (recs : List JSVal) (c : AuthCounters) :
    recs.foldl tallyRecord c =
      ⟨c.dkimPass + specCountResult
          (recs.flatMap (recordAuthEntries "dkim")) "pass",
       c.dkimFail + specCountResult
          (recs.flatMap (recordAuthEntries "dkim")) "fail",
       c.dkimTemperror + specCountResult
          (recs.flatMap (recordAuthEntries "dkim")) "temperror",
       c.spfPass + specCountResult
          (recs.flatMap (recordAuthEntries "spf")) "pass",
       c.spfFail + specCountResult
          (recs.flatMap (recordAuthEntries "spf")) "fail",
       c.spfTemperror + specCountResult
          (recs.flatMap (recordAuthEntries "spf")) "temperror"⟩ := by
  induction recs generalizing c with
  | nil => simp [specCountResult]
  | cons r rs ih =>
    rw [List.foldl_cons, tallyRecord_eq, ih]
    simp only [List.flatMap_cons, specCountResult, List.countP_append,
      AuthCounters.mk.injEq]
    omega

/-- C3: for every document accepted by `parseDMARCReportFromString`, the
six counters equal the number of DKIM (resp. SPF) auth-result entries —
across all records, under any single-element vs. array serialization —
whose result string lower-cases to "pass", "fail", and "temperror";
every other or missing result value is counted nowhere. -/
theorem dmarcAuthCounts (v : JSVal) (xml : String) (r : DMARCReport)
    (h : parseDMARCReportFromString v xml = .ok r) :
    r.dkimPass = specCountResult (docAuthEntries "dkim" v) "pass" ∧
    r.dkimFail = specCountResult (docAuthEntries "dkim" v) "fail" ∧
    r.dkimTemperror = specCountResult (docAuthEntries "dkim" v) "temperror" ∧
    r.spfPass = specCountResult (docAuthEntries "spf" v) "pass" ∧
    r.spfFail = specCountResult (docAuthEntries "spf" v) "fail" ∧
    r.spfTemperror = specCountResult (docAuthEntries "spf" v) "temperror" := by
  unfold parseDMARCReportFromString at h
  split at h
  · cases h
  · injection h with h
    subst h
    unfold docAuthEntries
    rw [foldl_tallyRecord]
    refine ⟨?_, ?_, ?_, ?_, ?_, ?_⟩ <;> simp

/-- Witness for `dmarcAuthCounts`: a document mixing array and
single-element serialization at the record, DKIM and SPF levels, with an
upper-case "PASS", a "fail", a "temperror" and an ignored "none". -/
theorem dmarcAuthCounts_witness :
    1 = specCountResult (docAuthEntries "dkim" (.obj [("feedback", .obj [
      ("report_metadata", .obj []),
      ("record", .arr [
        .obj [("auth_results", .obj [
          ("dkim", .arr [.obj [("result", .str "PASS")],
            .obj [("result", .str "fail")]]),
          ("spf", .obj [("result", .str "temperror")])])],
        .obj [("auth_results", .obj [
          ("dkim", .obj [("result", .str "none")])])]])])])) "pass" ∧
    1 = specCountResult (docAuthEntries "dkim" (.obj [("feedback", .obj [
      ("report_metadata", .obj []),
      ("record", .arr [
        .obj [("auth_results", .obj [
          ("dkim", .arr [.obj [("result", .str "PASS")],
            .obj [("result", .str "fail")]]),
          ("spf", .obj [("result", .str "temperror")])])],
        .obj [("auth_results", .obj [
          ("dkim", .obj [("result", .str "none")])])]])])])) "fail" ∧
    0 = specCountResult (docAuthEntries "dkim" (.obj [("feedback", .obj [
      ("report_metadata", .obj []),
      ("record", .arr [
        .obj [("auth_results", .obj [
          ("dkim", .arr [.obj [("result", .str "PASS")],
            .obj [("result", .str "fail")]]),
          ("spf", .obj [("result", .str "temperror")])])],
        .obj [("auth_results", .obj [
          ("dkim", .obj [("result", .str "none")])])]])])])) "temperror" ∧
    0 = specCountResult (docAuthEntries "spf" (.obj [("feedback", .obj [
      ("report_metadata", .obj []),
      ("record", .arr [
        .obj [("auth_results", .obj [
          ("dkim", .arr [.obj [("result", .str "PASS")],
            .obj [("result", .str "fail")]]),
          ("spf", .obj [("result", .str "temperror")])])],
        .obj [("auth_results", .obj [
          ("dkim", .obj [("result", .str "none")])])]])])])) "pass" ∧
    0 = specCountResult (docAuthEntries "spf" (.obj [("feedback", .obj [
      ("report_metadata", .obj []),
      ("record", .arr [
        .obj [("auth_results", .obj [
          ("dkim", .arr [.obj [("result", .str "PASS")],
            .obj [("result", .str "fail")]]),
          ("spf", .obj [("result", .str "temperror")])])],
        .obj [("auth_results", .obj [
          ("dkim", .obj [("result", .str "none")])])]])])])) "fail" ∧
    1 = specCountResult (docAuthEntries "spf" (.obj [("feedback", .obj [
      ("report_metadata", .obj []),
      ("record", .arr [
        .obj [("auth_results", .obj [
          ("dkim", .arr [.obj [("result", .str "PASS")],
            .obj [("result", .str "fail")]]),
          ("spf", .obj [("result", .str "temperror")])])],
        .obj [("auth_results", .obj [
          ("dkim", .obj [("result", .str "none")])])]])])])) "temperror" :=
  dmarcAuthCounts (.obj [("feedback", .obj [
      ("report_metadata", .obj []),
      ("record", .arr [
        .obj [("auth_results", .obj [
          ("dkim", .arr [.obj [("result", .str "PASS")],
            .obj [("result", .str "fail")]]),
          ("spf", .obj [("result", .str "temperror")])])],
        .obj [("auth_results", .obj [
          ("dkim", .obj [("result", .str "none")])])]])])]) ""
    ⟨.str "", .str "", .str "", some 0, some 0, 1, 1, 0, 0, 0, 1,
      .str "none", ""⟩ (by
      simp [parseDMARCReportFromString, isXMLDMARCFeedback, isObjNonNull,
        getKey, lookupField, feedbackOf, recordsArray, isFalsy, tallyRecord,
        authElems, resultLower, jsToLower, bumpDkim, bumpSpf, nullishD,
        jsToString, jsParseInt, parseIntDigits, natOfDigits, hexDigitVal,
        Char.isDigit])

/-! ### Date-range parsing (claim C6) -/

/-- The runtime value of `reportMetadata?.date_range?.begin` (or `.end`)
for a parsed document. -/
def dateField (which : String) (v : JSVal) : Option JSVal :=
  ((getKey (feedbackOf v) "report_metadata").bind
    (fun m => getKey m "date_range")).bind (fun d => getKey d which)

theorem dateDefaultZero (o : Option JSVal)
    (h : o = none ∨ o = some .null) :
    jsParseInt (jsToString (nullishD o (.str "0"))) = some 0 := by
  rcases h with rfl | rfl <;>
    simp [nullishD, jsToString, jsParseInt, parseIntDigits, natOfDigits,
      hexDigitVal, Char.isDigit]

theorem dateStringParse (o : Option JSVal) (s : String)
    (h : o = some (.str s)) :
    jsParseInt (jsToString (nullishD o (.str "0"))) = jsParseInt s := by
  subst h
  simp [nullishD, jsToString]

/-- C6 (amended): for every document accepted by
`parseDMARCReportFromString`, beginDate and endDate equal JS
`parseInt` applied to the (stringified) date-range begin/end values;
they equal 0 when the field is missing or null (the `?? "0"` default),
but when the field is present and its string is unparseable the result
is `NaN` (modelled `none`) rather than the claim's 0; a bad date value
never causes the whole parse to fail. -/
theorem dmarcDateParsing (v : JSVal) (xml : String) (r : DMARCReport)
    (h : parseDMARCReportFromString v xml = .ok r) :
    r.beginDate =
      jsParseInt (jsToString (nullishD (dateField "begin" v) (.str "0"))) ∧
    r.endDate =
      jsParseInt (jsToString (nullishD (dateField "end" v) (.str "0"))) ∧
    ((dateField "begin" v = none ∨ dateField "begin" v = some .null) →
      r.beginDate = some 0) ∧
    ((dateField "end" v = none ∨ dateField "end" v = some .null) →
      r.endDate = some 0) ∧
    (∀ s, dateField "begin" v = some (.str s) →
      r.beginDate = jsParseInt s) ∧
    (∀ s, dateField "end" v = some (.str s) →
      r.endDate = jsParseInt s) := by
  unfold parseDMARCReportFromString at h
  split at h
  · cases h
  · injection h with h
    subst h
    exact ⟨rfl, rfl,
      fun h1 => dateDefaultZero _ h1,
      fun h1 => dateDefaultZero _ h1,
      fun s h1 => dateStringParse _ s h1,
      fun s h1 => dateStringParse _ s h1⟩

/-- C6 counterexample: the claim states an unparseable date yields 0, but
at the accepted document whose date-range begin is the string "garbage"
the parse succeeds with beginDate = NaN (modelled `none`), not 0. -/
theorem dmarcDateNaN_counterexample :
    (parseDMARCReportFromString (.obj [("feedback", .obj [
        ("report_metadata", .obj [("date_range", .obj [
          ("begin", .str "garbage"),
          ("end", .str "10")])])])]) "").toOption.map DMARCReport.beginDate =
      some none ∧
    (some (none : Option Int) ≠ some (some 0)) :=
  ⟨by
    simp [parseDMARCReportFromString, isXMLDMARCFeedback, isObjNonNull,
      getKey, lookupField, feedbackOf, recordsArray, isFalsy, tallyRecord,
      authElems, resultLower, jsToLower, bumpDkim, bumpSpf, nullishD,
      jsToString, jsParseInt, parseIntDigits, natOfDigits, hexDigitVal,
      Char.isDigit, Except.toOption], by decide⟩

/-- Witness for `dmarcDateParsing`: a document whose date-range end is the
string "10" parses with endDate = parseInt "10" = 10. -/
theorem dmarcDateParsing_witness :
    (some 10 : Option Int) = jsParseInt "10" :=
  (dmarcDateParsing (.obj [("feedback", .obj [
      ("report_metadata", .obj [("date_range", .obj [
        ("begin", .str "garbage"), ("end", .str "10")])])])]) ""
    ⟨.str "", .str "", .str "", none, some 10, 0, 0, 0, 0, 0, 0,
      .str "none", ""⟩ (by
      simp [parseDMARCReportFromString, isXMLDMARCFeedback, isObjNonNull,
        getKey, lookupField, feedbackOf, recordsArray, isFalsy, tallyRecord,
        authElems, resultLower, jsToLower, bumpDkim, bumpSpf, nullishD,
        jsToString, jsParseInt, parseIntDigits, natOfDigits, hexDigitVal,
        Char.isDigit])).2.2.2.2.2 "10" (by rfl)

end DmarcWorker
